import Mathlib

/-!
# Shallow embedding of the Stall_Indicator repository

The repository holds two small bare-metal C programs sharing one
sample/validate/decide/actuate loop over memory-mapped registers:

* `src/stall_indicator.c` — the StallEvaluator variant: reads both ADC
  channels each iteration, converts them to a velocity and an angle of
  attack, raises an all-LEDs alarm when `velocity < velocity_stall` or
  `AoA > MAX_AOA`.
* `src/unnamed/part_000` — the Quantizer (bar-graph) variant: a slide
  switch selects one ADC channel; the 12-bit sample is scaled to a count
  of 0..10 lit LEDs, shown as a contiguous low-bit mask.

C `float` arithmetic is modelled by exact rational arithmetic over `ℚ`;
the square root taken by `sqrtf` is kept symbolic: the embedding stores
the radicand `velocity_stall_sq` exactly and compares against it by
squaring (for `0 ≤ v`, `v < sqrt t ↔ v * v < t`), which the theorems
relate to `Real.sqrt`.  All machine integers involved stay far below
`2 ^ 32`, so `ℕ` coincides with the C `int`/`uint32_t` values.
-/

/-- Conversion-complete test, common to both programs: the raw ADC word
is tested against the compiled-in literal `0x10000`
(`if (adc_read & 0x10000)`; the source comment reads
"change to 0x8000 for hardware"). -/
def pollComplete (adc_read : ℕ) : Bool := decide (adc_read &&& 0x10000 ≠ 0)

/-! ## Constants of `src/stall_indicator.c` -/

/-- `#define WEIGHT 980000.0f` (Newtons). -/
def WEIGHT : ℚ := 980000

/-- `#define RHO 1.225f` (air density, kg/m^3). -/
def RHO : ℚ := 1.225

/-- `#define WING_AREA 125.0f` (m^2). -/
def WING_AREA : ℚ := 125

/-- `#define CL_MAX 1.2f` (maximum lift coefficient). -/
def CL_MAX : ℚ := 1.2

/-- `#define MAX_AOA 15.0f` (stall angle-of-attack limit, degrees). -/
def MAX_AOA : ℚ := 15

/-- The radicand of `velocity_stall = sqrtf((2.0f * WEIGHT) / (RHO *
WING_AREA * CL_MAX))`, kept exact; the threshold itself is
`Real.sqrt velocity_stall_sq`. -/
def velocity_stall_sq : ℚ := (2 * WEIGHT) / (RHO * WING_AREA * CL_MAX)

/-! ## Unit conversions (inlined in `main` of `src/stall_indicator.c`;
named as in the specification's Unit Converter) -/

/-- `adc_val / 4095.0f` — normalised amplitude of a 12-bit sample. -/
def toAmplitude (raw_code : ℕ) : ℚ := (raw_code : ℚ) / 4095

/-- `current_velocity = (adc_val0 / 4095.0f) * 300.0f`. -/
def toVelocity (raw_code : ℕ) : ℚ := toAmplitude raw_code * 300

/-- `current_AoA = ((adc_val1 / 4095.0f) - 0.5f) * 60.0f`. -/
def toAngle (raw_code : ℕ) : ℚ := (toAmplitude raw_code - 0.5) * 60

/-- `stalling = (current_velocity < velocity_stall) || (current_AoA > MAX_AOA)`.
The comparison with the square root is rendered by squaring: the
program only ever feeds non-negative velocities, and for `0 ≤ v` we
have `v < Real.sqrt t ↔ v * v < t` (proved below). -/
def stalling (velocity AoA : ℚ) : Bool :=
  decide (velocity * velocity < velocity_stall_sq) || decide (MAX_AOA < AoA)

/-- The LED drive of the StallEvaluator:
`if (stalling) *jp1_data_ptr = 0x3FF; else *jp1_data_ptr = 0x000;`. -/
def stallMask (alarm : Bool) : ℕ := if alarm then 0x3FF else 0x000

/-- One iteration of the StallEvaluator loop body, as the optional value
written to the JP1 data register: `none` when either channel's
completion bit is unset (no store is executed), `some mask` otherwise. -/
def stallWrite (raw_ch0 raw_ch1 : ℕ) : Option ℕ :=
  if pollComplete raw_ch0 && pollComplete raw_ch1 then
    some (stallMask (stalling (toVelocity (raw_ch0 &&& 0xFFF))
                              (toAngle (raw_ch1 &&& 0xFFF))))
  else none

/-- The JP1 data register after one StallEvaluator iteration, given its
prior value: a register keeps its value unless stored to. -/
def stallStep (raw_ch0 raw_ch1 prev : ℕ) : ℕ :=
  (stallWrite raw_ch0 raw_ch1).getD prev

/-! ## `src/unnamed/part_000` — the Quantizer (bar-graph) variant -/

/-- `led_count = (adc_value * 10) / 4095; if (led_count > 10) led_count = 10;`. -/
def led_count (adc_value : ℕ) : ℕ :=
  let c := adc_value * 10 / 4095
  if c > 10 then 10 else c

/-- `led_mask = (led_count > 0) ? ((1 << led_count) - 1) : 0;`. -/
def led_mask (count : ℕ) : ℕ := if count > 0 then (1 <<< count) - 1 else 0

/-- Channel selection: `sw0 = (*sw_ptr) & 0x1;` then
`adc_read = (sw0 == 0) ? *adc_ch0_ptr : *adc_ch1_ptr;` (written as an
`if`/`else` in the source). -/
def selectChannel (sw raw_ch0 raw_ch1 : ℕ) : ℕ :=
  if sw &&& 0x1 = 0 then raw_ch0 else raw_ch1

/-- One iteration of the Quantizer loop body, as the optional value
written to the JP1 data register: `none` when the selected channel's
completion bit is unset. -/
def quantWrite (sw raw_ch0 raw_ch1 : ℕ) : Option ℕ :=
  let adc_read := selectChannel sw raw_ch0 raw_ch1
  if pollComplete adc_read then some (led_mask (led_count (adc_read &&& 0xFFF)))
  else none

/-- The JP1 data register after one Quantizer iteration, given its prior
value. -/
def quantStep (sw raw_ch0 raw_ch1 prev : ℕ) : ℕ :=
  (quantWrite sw raw_ch0 raw_ch1).getD prev

/-! ## Read traces of one loop iteration

To state which registers an iteration reads (and how often), the input
registers are named and each loop body is paired with the ordered list
of reads its source performs. -/

/-- The three input registers visible to the loop bodies. -/
inductive Reg
  | sw
  | adc0
  | adc1
deriving DecidableEq

/-- Ordered reads of one Quantizer iteration: the switch word first,
then exactly the channel its low bit selects. -/
def quantIterReads (env : Reg → ℕ) : List Reg :=
  Reg.sw :: [if env Reg.sw &&& 0x1 = 0 then Reg.adc0 else Reg.adc1]

/-- Ordered reads of one StallEvaluator iteration: both ADC channels,
unconditionally; the switch bank is never read. -/
def stallIterReads : List Reg := [Reg.adc0, Reg.adc1]

/-! ## Helper lemmas -/

/-- The exact value of the radicand: `2·980000 / (1.225·125·1.2) = 32000/3`. -/
lemma velocity_stall_sq_eq : velocity_stall_sq = 32000 / 3 := by
  norm_num [velocity_stall_sq, WEIGHT, RHO, WING_AREA, CL_MAX]

/-- Squaring bridge: for a non-negative rational `v`, comparing with the
real square root of `t` is comparing `v * v` with `t`. -/
lemma lt_sqrt_iff_mul_self (v t : ℚ) (hv : 0 ≤ v) :
    ((v : ℝ) < Real.sqrt (t : ℝ)) ↔ v * v < t := by
  rw [Real.lt_sqrt (by exact_mod_cast hv),
    show ((v : ℝ)) ^ 2 = ((v * v : ℚ) : ℝ) by push_cast; ring]
  exact Rat.cast_lt

/-- Converted velocities are non-negative. -/
lemma toVelocity_nonneg (raw_code : ℕ) : 0 ≤ toVelocity raw_code := by
  unfold toVelocity toAmplitude
  positivity

/-- C1.  For every pair of converted readings `(velocity, angle)` coming
from completed samples, the StallEvaluator's alarm is true iff
`velocity < velocity_stall` (the real square root of the radicand) or
`angle > MAX_AOA`, and the value driven to the LEDs is the full 10-bit
mask `0x3FF` when the alarm holds and `0x000` otherwise. -/
theorem C1_stall_alarm_iff_mask (raw_ch0 raw_ch1 : ℕ)
    (h0 : pollComplete raw_ch0 = true) (h1 : pollComplete raw_ch1 = true) :
    (stalling (toVelocity (raw_ch0 &&& 0xFFF)) (toAngle (raw_ch1 &&& 0xFFF)) = true ↔
      ((toVelocity (raw_ch0 &&& 0xFFF) : ℝ) < Real.sqrt (velocity_stall_sq : ℝ) ∨
        toAngle (raw_ch1 &&& 0xFFF) > MAX_AOA)) ∧
    stallWrite raw_ch0 raw_ch1 =
      some (if stalling (toVelocity (raw_ch0 &&& 0xFFF)) (toAngle (raw_ch1 &&& 0xFFF))
            then 0x3FF else 0x000) := by
  constructor
  · simp only [stalling, Bool.or_eq_true, decide_eq_true_iff]
    exact or_congr
      (lt_sqrt_iff_mul_self _ _ (toVelocity_nonneg _)).symm Iff.rfl
  · simp [stallWrite, h0, h1, stallMask]

/-- C1 witness: both raw words `0x10000` have the completion bit set, and
the characterisation applies to them. -/
theorem C1_witness :
    pollComplete 0x10000 = true ∧
    ((stalling (toVelocity (0x10000 &&& 0xFFF)) (toAngle (0x10000 &&& 0xFFF)) = true ↔
      ((toVelocity (0x10000 &&& 0xFFF) : ℝ) < Real.sqrt (velocity_stall_sq : ℝ) ∨
        toAngle (0x10000 &&& 0xFFF) > MAX_AOA)) ∧
    stallWrite 0x10000 0x10000 =
      some (if stalling (toVelocity (0x10000 &&& 0xFFF)) (toAngle (0x10000 &&& 0xFFF))
            then 0x3FF else 0x000)) :=
  ⟨by decide, C1_stall_alarm_iff_mask 0x10000 0x10000 (by decide) (by decide)⟩

/-- C2 counterexample: the stall threshold `sqrt(2·980000/(1.225·125·1.2))`
is below 104, hence more than 11 velocity units away from the claimed
value 115.96 — it is not approximately 115.96. -/
theorem C2_counterexample :
    Real.sqrt (velocity_stall_sq : ℝ) < 104 ∧ (104 : ℝ) < 115.96 - 11 := by
  constructor
  · rw [Real.sqrt_lt' (by norm_num), velocity_stall_sq_eq]
    push_cast
    norm_num
  · norm_num

/-- C2 (amended).  The threshold is computed once as
`sqrt((2·weight)/(airDensity·wingArea·maxLiftCoefficient))`; with the
program's constants it lies strictly between 103.27 and 103.29 (about
103.28, not 115.96), and with angle 0 the alarm is true at velocity 100
and false at velocity 150. -/
theorem C2_stall_threshold :
    velocity_stall_sq = (2 * WEIGHT) / (RHO * WING_AREA * CL_MAX) ∧
    (103.27 : ℝ) < Real.sqrt (velocity_stall_sq : ℝ) ∧
    Real.sqrt (velocity_stall_sq : ℝ) < 103.29 ∧
    stalling 100 0 = true ∧ stalling 150 0 = false := by
  refine ⟨rfl, ?_, ?_, ?_, ?_⟩
  · rw [Real.lt_sqrt (by norm_num), velocity_stall_sq_eq]
    push_cast
    norm_num
  · rw [Real.sqrt_lt' (by norm_num), velocity_stall_sq_eq]
    push_cast
    norm_num
  · simp only [stalling, velocity_stall_sq_eq, MAX_AOA, Bool.or_eq_true,
      decide_eq_true_iff]
    norm_num
  · simp only [stalling, velocity_stall_sq_eq, MAX_AOA, Bool.or_eq_false_iff,
      decide_eq_false_iff_not]
    norm_num

/-- C3.  If a required sample's completion bit is unset — either channel
for the StallEvaluator, the selected channel for the Quantizer — that
iteration performs no store to the actuator data register, so the
register keeps its prior value. -/
theorem C3_incomplete_retains_prev (raw_ch0 raw_ch1 sw prev : ℕ)
    (hs : pollComplete raw_ch0 = false ∨ pollComplete raw_ch1 = false)
    (hq : pollComplete (selectChannel sw raw_ch0 raw_ch1) = false) :
    stallWrite raw_ch0 raw_ch1 = none ∧
    stallStep raw_ch0 raw_ch1 prev = prev ∧
    quantWrite sw raw_ch0 raw_ch1 = none ∧
    quantStep sw raw_ch0 raw_ch1 prev = prev := by
  have hw : stallWrite raw_ch0 raw_ch1 = none := by
    unfold stallWrite
    rcases hs with h | h <;> simp [h]
  have hw2 : quantWrite sw raw_ch0 raw_ch1 = none := by
    unfold quantWrite
    simp [hq]
  exact ⟨hw, by simp [stallStep, hw], hw2, by simp [quantStep, hw2]⟩

/-- C3 witness: raw words 0 have the completion bit clear, and the prior
register value 7 survives the iteration in both variants. -/
theorem C3_witness :
    (pollComplete 0 = false ∨ pollComplete 0 = false) ∧
    pollComplete (selectChannel 0 0 0) = false ∧
    (stallWrite 0 0 = none ∧ stallStep 0 0 7 = 7 ∧
      quantWrite 0 0 0 = none ∧ quantStep 0 0 0 7 = 7) :=
  ⟨Or.inl (by decide), by decide,
    C3_incomplete_retains_prev 0 0 0 7 (Or.inl (by decide)) (by decide)⟩

/-- Unfolding of `led_count` with the local variable `c` substituted. -/
lemma led_count_def (adc_value : ℕ) :
    led_count adc_value =
      if adc_value * 10 / 4095 > 10 then 10 else adc_value * 10 / 4095 := rfl

/-- The bar-graph mask always equals `2 ^ count - 1` (also when
`count = 0`, since `2 ^ 0 - 1 = 0`). -/
lemma led_mask_eq (count : ℕ) : led_mask count = 2 ^ count - 1 := by
  rcases Nat.eq_zero_or_pos count with h | h
  · subst h
    rfl
  · unfold led_mask
    rw [if_pos h, Nat.one_shiftLeft]

/-- The LED count never exceeds 10 (by the clamp). -/
lemma led_count_le_ten (adc_value : ℕ) : led_count adc_value ≤ 10 := by
  rw [led_count_def]
  split <;> omega

/-- C4.  For every 12-bit `adc_value`, the Quantizer's count is the
floor of `amplitude * 10` clamped to `[0, 10]`, the mask is the low
`count` bits (`2 ^ count - 1`, the spec's `(1 << count) - 1` shape), and
the maximal code 4095 yields count 10 and mask `0x3FF`. -/
theorem C4_quantizer_count_mask (adc_value : ℕ) (h : adc_value ≤ 4095) :
    led_count adc_value = min (⌊toAmplitude adc_value * 10⌋₊) 10 ∧
    led_count adc_value = ⌊toAmplitude adc_value * 10⌋₊ ∧
    led_count adc_value ≤ 10 ∧
    led_mask (led_count adc_value) = 2 ^ led_count adc_value - 1 ∧
    led_count 4095 = 10 ∧ led_mask (led_count 4095) = 0x3FF := by
  have hfloor : ⌊toAmplitude adc_value * 10⌋₊ = adc_value * 10 / 4095 := by
    have hrw : toAmplitude adc_value * 10 =
        ((adc_value * 10 : ℕ) : ℚ) / ((4095 : ℕ) : ℚ) := by
      unfold toAmplitude
      push_cast
      ring
    rw [hrw, Nat.floor_div_nat, Nat.floor_natCast]
  have hb : adc_value * 10 / 4095 ≤ 10 := by
    calc adc_value * 10 / 4095 ≤ 4095 * 10 / 4095 :=
          Nat.div_le_div_right (Nat.mul_le_mul_right _ h)
      _ = 10 := by norm_num
  have hc : led_count adc_value = adc_value * 10 / 4095 := by
    rw [led_count_def, if_neg (by omega)]
  refine ⟨?_, ?_, led_count_le_ten _, led_mask_eq _, by decide, by decide⟩
  · rw [hfloor, hc]
    omega
  · rw [hfloor, hc]

/-- C4 witness: the mid-scale code 2048 is in range; in particular the
characterisation gives count 5 and mask `0x1F` there. -/
theorem C4_witness :
    (2048 : ℕ) ≤ 4095 ∧
    (led_count 2048 = min (⌊toAmplitude 2048 * 10⌋₊) 10 ∧
     led_count 2048 = ⌊toAmplitude 2048 * 10⌋₊ ∧
     led_count 2048 ≤ 10 ∧
     led_mask (led_count 2048) = 2 ^ led_count 2048 - 1 ∧
     led_count 4095 = 10 ∧ led_mask (led_count 4095) = 0x3FF) :=
  ⟨by decide, C4_quantizer_count_mask 2048 (by decide)⟩

/-- C5.  The Quantizer's count is monotone: amplitudes in the same order
give counts in the same order. -/
theorem C5_quantizer_monotone (a1 a2 : ℕ)
    (h : toAmplitude a1 ≤ toAmplitude a2) :
    led_count a1 ≤ led_count a2 := by
  have hn : a1 ≤ a2 := by
    have hq : (a1 : ℚ) ≤ (a2 : ℚ) := by
      have h' := mul_le_mul_of_nonneg_right h (by norm_num : (0 : ℚ) ≤ 4095)
      simpa [toAmplitude, div_mul_cancel₀] using h'
    exact_mod_cast hq
  have hdiv : a1 * 10 / 4095 ≤ a2 * 10 / 4095 :=
    Nat.div_le_div_right (Nat.mul_le_mul_right _ hn)
  rw [led_count_def, led_count_def]
  split <;> split <;> omega

/-- C5 witness: applied at the (ordered) pair of amplitudes of codes
1000 and 1000. -/
theorem C5_witness :
    toAmplitude 1000 ≤ toAmplitude 1000 ∧ led_count 1000 ≤ led_count 1000 :=
  ⟨le_refl _, C5_quantizer_monotone 1000 1000 (le_refl _)⟩

/-- C6.  The unit conversions: `toAmplitude` is monotone non-decreasing
and bounded in `[0, 1]` on the 12-bit domain; `toVelocity` is amplitude
times 300; `toAngle` is `(amplitude - 0.5) * 60` and lies in
`[-30, 30]`. -/
theorem C6_unit_conversions (r1 r2 : ℕ) (h12 : r1 ≤ r2) (h2 : r2 ≤ 4095) :
    toAmplitude r1 ≤ toAmplitude r2 ∧
    0 ≤ toAmplitude r1 ∧ toAmplitude r2 ≤ 1 ∧
    toVelocity r1 = toAmplitude r1 * 300 ∧
    toAngle r1 = (toAmplitude r1 - 0.5) * 60 ∧
    -30 ≤ toAngle r1 ∧ toAngle r2 ≤ 30 := by
  have c12 : (r1 : ℚ) ≤ (r2 : ℚ) := by exact_mod_cast h12
  have c2 : (r2 : ℚ) ≤ 4095 := by exact_mod_cast h2
  have c1 : (0 : ℚ) ≤ (r1 : ℚ) := by positivity
  refine ⟨?_, ?_, ?_, rfl, rfl, ?_, ?_⟩ <;>
    simp only [toAngle, toAmplitude] <;> linarith

/-- C6 witness: the endpoints 0 and 4095 of the 12-bit domain. -/
theorem C6_witness :
    (0 : ℕ) ≤ 4095 ∧ (4095 : ℕ) ≤ 4095 ∧
    (toAmplitude 0 ≤ toAmplitude 4095 ∧
     0 ≤ toAmplitude 0 ∧ toAmplitude 4095 ≤ 1 ∧
     toVelocity 0 = toAmplitude 0 * 300 ∧
     toAngle 0 = (toAmplitude 0 - 0.5) * 60 ∧
     -30 ≤ toAngle 0 ∧ toAngle 4095 ≤ 30) :=
  ⟨by decide, by decide, C6_unit_conversions 0 4095 (by decide) (by decide)⟩

/-- C7.  Per iteration: the Quantizer reads the switch word exactly once
and then reads only the channel selected by its low bit (low selects
channel 0, high selects channel 1 — the unselected channel is never
read); the StallEvaluator reads both fixed ADC channels unconditionally
and never reads the switch. -/
theorem C7_channel_selection (env : Reg → ℕ) :
    (quantIterReads env).count Reg.sw = 1 ∧
    quantIterReads env =
      [Reg.sw, if env Reg.sw &&& 0x1 = 0 then Reg.adc0 else Reg.adc1] ∧
    (if env Reg.sw &&& 0x1 = 0 then Reg.adc1 else Reg.adc0) ∉ quantIterReads env ∧
    stallIterReads = [Reg.adc0, Reg.adc1] ∧
    Reg.adc0 ∈ stallIterReads ∧ Reg.adc1 ∈ stallIterReads ∧
    Reg.sw ∉ stallIterReads := by
  by_cases hb : env Reg.sw &&& 0x1 = 0
  · simp only [quantIterReads, stallIterReads, if_pos hb]
    decide
  · simp only [quantIterReads, stallIterReads, if_neg hb]
    decide

/-- Unfolding of `quantWrite` with the local variable `adc_read`
substituted. -/
lemma quantWrite_def (sw raw_ch0 raw_ch1 : ℕ) :
    quantWrite sw raw_ch0 raw_ch1 =
      if pollComplete (selectChannel sw raw_ch0 raw_ch1) then
        some (led_mask (led_count (selectChannel sw raw_ch0 raw_ch1 &&& 0xFFF)))
      else none := rfl

/-- The stall drive value is one of the two constants, both at most
`0x3FF`. -/
lemma stallMask_le (alarm : Bool) : stallMask alarm ≤ 0x3FF := by
  cases alarm <;> simp [stallMask]

/-- The bar-graph mask of a clamped count fits in the low 10 bits. -/
lemma led_mask_le (count : ℕ) (h : count ≤ 10) : led_mask count ≤ 0x3FF := by
  rw [led_mask_eq]
  have hpow : 2 ^ count ≤ 2 ^ 10 := Nat.pow_le_pow_right (by norm_num) h
  omega

/-- C9.  Every value either variant stores to the actuator data register
fits in the low 10 bits (is at most `0x3FF`), the register value after
an iteration stays at most `0x3FF` whenever it was before, and a store
fully replaces the register: when a write happens, the result does not
depend on the prior value. -/
theorem C9_actuator_low_bits (sw raw_ch0 raw_ch1 prev : ℕ)
    (hprev : prev ≤ 0x3FF) :
    (∀ v ∈ stallWrite raw_ch0 raw_ch1, v ≤ 0x3FF) ∧
    (∀ v ∈ quantWrite sw raw_ch0 raw_ch1, v ≤ 0x3FF) ∧
    stallStep raw_ch0 raw_ch1 prev ≤ 0x3FF ∧
    quantStep sw raw_ch0 raw_ch1 prev ≤ 0x3FF ∧
    (∀ prev2, stallWrite raw_ch0 raw_ch1 ≠ none →
      stallStep raw_ch0 raw_ch1 prev = stallStep raw_ch0 raw_ch1 prev2) ∧
    (∀ prev2, quantWrite sw raw_ch0 raw_ch1 ≠ none →
      quantStep sw raw_ch0 raw_ch1 prev = quantStep sw raw_ch0 raw_ch1 prev2) := by
  have hsw : ∀ v ∈ stallWrite raw_ch0 raw_ch1, v ≤ 0x3FF := by
    intro v hv
    unfold stallWrite at hv
    split at hv
    · simp only [Option.mem_def, Option.some_inj] at hv
      exact hv ▸ stallMask_le _
    · simp at hv
  have hqw : ∀ v ∈ quantWrite sw raw_ch0 raw_ch1, v ≤ 0x3FF := by
    intro v hv
    rw [quantWrite_def] at hv
    split at hv
    · simp only [Option.mem_def, Option.some_inj] at hv
      exact hv ▸ led_mask_le _ (led_count_le_ten _)
    · simp at hv
  refine ⟨hsw, hqw, ?_, ?_, ?_, ?_⟩
  · unfold stallStep
    cases hw : stallWrite raw_ch0 raw_ch1 with
    | none => simpa using hprev
    | some v => simpa using hsw v (by simp [hw])
  · unfold quantStep
    cases hw : quantWrite sw raw_ch0 raw_ch1 with
    | none => simpa using hprev
    | some v => simpa using hqw v (by simp [hw])
  · intro prev2 hne
    unfold stallStep
    cases hw : stallWrite raw_ch0 raw_ch1 with
    | none => exact absurd hw hne
    | some v => simp
  · intro prev2 hne
    unfold quantStep
    cases hw : quantWrite sw raw_ch0 raw_ch1 with
    | none => exact absurd hw hne
    | some v => simp

/-- C9 witness: at completed samples `0x10FFF` on all channels and prior
register value 7 ≤ 0x3FF. -/
theorem C9_witness :
    (7 : ℕ) ≤ 0x3FF ∧
    ((∀ v ∈ stallWrite 0x10FFF 0x10FFF, v ≤ 0x3FF) ∧
     (∀ v ∈ quantWrite 0 0x10FFF 0x10FFF, v ≤ 0x3FF) ∧
     stallStep 0x10FFF 0x10FFF 7 ≤ 0x3FF ∧
     quantStep 0 0x10FFF 0x10FFF 7 ≤ 0x3FF ∧
     (∀ prev2, stallWrite 0x10FFF 0x10FFF ≠ none →
       stallStep 0x10FFF 0x10FFF 7 = stallStep 0x10FFF 0x10FFF prev2) ∧
     (∀ prev2, quantWrite 0 0x10FFF 0x10FFF ≠ none →
       quantStep 0 0x10FFF 0x10FFF 7 = quantStep 0 0x10FFF 0x10FFF prev2)) :=
  ⟨by decide, C9_actuator_low_bits 0 0x10FFF 0x10FFF 7 (by decide)⟩

/-- C10.  Because the raw word is masked with `0xFFF` before scaling,
the scaled value `(adc_value * 10) / 4095` never exceeds 10, so the
clamp branch `if (led_count > 10)` never fires: `led_count` equals the
unclamped quotient. -/
theorem C10_clamp_unreachable (raw_word : ℕ) :
    (raw_word &&& 0xFFF) * 10 / 4095 ≤ 10 ∧
    led_count (raw_word &&& 0xFFF) = (raw_word &&& 0xFFF) * 10 / 4095 ∧
    ¬ 10 < (raw_word &&& 0xFFF) * 10 / 4095 := by
  have hm : raw_word &&& 0xFFF ≤ 0xFFF := Nat.and_le_right
  have h10 : (raw_word &&& 0xFFF) * 10 / 4095 ≤ 10 := by
    calc (raw_word &&& 0xFFF) * 10 / 4095
        ≤ 0xFFF * 10 / 4095 := Nat.div_le_div_right (Nat.mul_le_mul_right _ hm)
      _ = 10 := by norm_num
  exact ⟨h10, by rw [led_count_def, if_neg (by omega)], by omega⟩

/-- C8 counterexample: take the hardware target's documented completion
bit, position 15 (the source comment "change to 0x8000 for hardware").
A raw word with exactly that bit set (`0x8000`) is reported incomplete
by the poll of both programs, because the test is the single compiled-in
constant `0x10000` (bit 16), not the configured position — so the bit
position is not an overridable parameter of the code. -/
theorem C8_counterexample :
    Nat.testBit 0x8000 15 = true ∧ pollComplete 0x8000 = false ∧
    stallWrite 0x8000 0x8000 = none ∧ quantWrite 0 0x8000 0x8000 = none := by
  refine ⟨by decide, by decide, by decide, by decide⟩

/-- C8 (amended).  Both variants test a single compiled-in completion
bit: for every raw word, the poll succeeds exactly when bit 16 (the
literal `0x10000`) is set; a different target's bit position requires
editing the constant, it is not a configuration parameter. -/
theorem C8_poll_fixed_bit (adc_read : ℕ) :
    pollComplete adc_read = adc_read.testBit 16 := by
  have h16 : (0x10000 : ℕ) = 2 ^ 16 := by norm_num
  simp only [pollComplete, h16, Nat.and_two_pow]
  cases hb : adc_read.testBit 16 <;> simp [hb]
